import Mathlib

/-!
# Verification of the wikipedia-html-extractor ingestion pipeline

A shallow embedding of the pure core of the extractor: URL-to-key
derivation (`parse_url`), key sanitization (`sanitize_name`), the
two-level shard-path scheme (`extract.rs` and `ensure_nested.rs`),
the per-record processing of the filesystem sinks, the relational
sink's `serialize_article`, and the control flow of the two
front-ends (input validation, limit-based cancellation, error
classification).

Strings are modelled as `List Char` (Rust `char` iteration is over
Unicode scalar values, which is exactly Lean's `Char`); paths are
lists of path components. Filesystem and database effects are
modelled by explicit environments and action traces.
-/

namespace WikiExtract

/-- A string, modelled as its list of Unicode scalar values. -/
abbrev Str := List Char

/-- A filesystem path, modelled as its list of components. -/
abbrev FsPath := List Str

/-! ## `parse_url` (src/extract.rs lines 149-155, src/extract/files.rs lines 135-141)

Rust's `str::find(pat)` returns the index of the first occurrence of
`pat`; `&url[idx + PREFIX.len()..]` is the suffix after that first
occurrence. The marker `"/wiki/"` is ASCII, so byte indices and
scalar-value indices coincide on the marker itself and slicing after
it is slicing after the same scalar values. -/

/-- Test `leadsWith p s`: true when `p` is an initial segment of `s`
(the substring-match test used at one candidate position). -/
def leadsWith : Str → Str → Bool
  | [], _ => true
  | _ :: _, [] => false
  | a :: as_, b :: bs => a = b && leadsWith as_ bs

/-- Function `strFind pat s`: index of the first occurrence of `pat` in `s`,
as Rust `str::find`. -/
def strFind (pat : Str) : Str → Option Nat
  | [] => if leadsWith pat [] then some 0 else none
  | c :: rest =>
    if leadsWith pat (c :: rest) then some 0
    else (strFind pat rest).map (· + 1)

/-- The fixed path marker `PREFIX = "/wiki/"`. -/
def wikiMarker : Str := "/wiki/".toList

/-- The fixed extension appended to the derived key. -/
def htmlExt : Str := ".html".toList

/-- Transcription of `parse_url` from src/extract.rs: the suffix of `url` after the
first occurrence of `"/wiki/"`, with `".html"` appended; `none` when
the marker does not occur (the Rust error message string is
presentation only and is not modelled). -/
def parse_url (url : Str) : Option Str :=
  match strFind wikiMarker url with
  | none => none
  | some idx => some (url.drop (idx + wikiMarker.length) ++ htmlExt)

/-! ## `sanitize_name` (src/extract.rs lines 157-161, src/extract/files.rs lines 143-147)

Three sequential single-character `String::replace` calls. -/

/-- Replacement text for `'/'`. -/
def slashEsc : Str := "__".toList

/-- Replacement text for `':'`. -/
def colonEsc : Str := "__colon__".toList

/-- Replacement text for `'*'`. -/
def starEsc : Str := "__star__".toList

/-- Model of `String::replace` with a single-character pattern: every
occurrence of `c` is replaced by `r`. -/
def replaceChar (c : Char) (r : Str) : Str → Str
  | [] => []
  | x :: xs => (if x = c then r else [x]) ++ replaceChar c r xs

/-- Transcription of `sanitize_name` from the source: replace `'/'` by `"__"`, then
`':'` by `"__colon__"`, then `'*'` by `"__star__"`. -/
def sanitize_name (s : Str) : Str :=
  replaceChar '*' starEsc (replaceChar ':' colonEsc (replaceChar '/' slashEsc s))

/-- The filesystem-hostile characters the sanitizer escapes. -/
def dangerous (c : Char) : Bool :=
  c = '/' || c = ':' || c = '*'

/-- Per-character escape: the net effect of the three replaces on one
character (`sanitize_cons` proves that `sanitize_name` acts
characterwise through it). -/
def escChar (c : Char) : Str :=
  if c = '/' then slashEsc
  else if c = ':' then colonEsc
  else if c = '*' then starEsc
  else [c]

/-! ## Shard-path derivation

src/extract.rs lines 85-92 and src/ensure_nested.rs lines 81-88 both
push the first `char` of the key as a directory component, then the
second if present, then the key itself. Each is transcribed
separately so their agreement is a theorem, not an assumption. -/

/-- Shard directory computed by the extract pipeline
(src/extract.rs lines 85-92): `target_dir` plus one or two
single-character components from `chars.next()`. -/
def extractShardDir (targetDir : FsPath) (name : Str) : FsPath :=
  match name with
  | [] => targetDir
  | [c1] => targetDir ++ [[c1]]
  | c1 :: c2 :: _ => targetDir ++ [[c1], [c2]]

/-- Full target path of the extract pipeline: shard directory plus
the key as file name (`target_file.push(name)`). -/
def extractShardPath (targetDir : FsPath) (name : Str) : FsPath :=
  extractShardDir targetDir name ++ [name]

/-- Shard directory computed by the ensure-nested retrofit
(src/ensure_nested.rs lines 81-88). -/
def ensureNestedShardDir (targetDir : FsPath) (name : Str) : FsPath :=
  match name with
  | [] => targetDir
  | [c1] => targetDir ++ [[c1]]
  | c1 :: c2 :: _ => targetDir ++ [[c1], [c2]]

/-- Full target path of the ensure-nested retrofit: shard directory
plus the existing file name. -/
def ensureNestedShardPath (targetDir : FsPath) (name : Str) : FsPath :=
  ensureNestedShardDir targetDir name ++ [name]

/-! ## Records and the per-record filesystem pipeline (src/extract.rs lines 75-141)

Each element yielded by the `StreamDeserializer` is either a decode
error or an `ArticleEntry`; the surrounding filesystem answers the
`create_dir_all`, `is_file` and `fs::write` calls. Those outside
answers are collected in a per-record environment so the loop body
becomes a pure function from environment to outcome and emitted
filesystem actions. -/

/-- Record body `ArticleBody { html }` from src/extract.rs. -/
structure ArticleBody where
  html : Str
  deriving DecidableEq

/-- Record `ArticleEntry { name, url, body }` from src/extract.rs. -/
structure ArticleEntry where
  name : Str
  url : Str
  body : ArticleBody
  deriving DecidableEq

/-- One stream element together with the filesystem's answers for
this record: `decoded = none` models a `serde_json` decode error;
`dirCreateOk`, `targetExists`, `writeOk` are the results the
filesystem returns for `create_dir_all`, `target_file.is_file()` and
`fs::write` respectively. -/
structure RecordEnv where
  decoded : Option ArticleEntry
  dirCreateOk : Bool
  targetExists : Bool
  writeOk : Bool
  deriving DecidableEq

/-- Filesystem calls the loop body issues. -/
inductive FsAction where
  | createDirAll (p : FsPath)
  | writeFile (p : FsPath) (data : Str)
  deriving DecidableEq

/-- How one record leaves the loop body of src/extract.rs lines
75-141: exactly one branch per record. -/
inductive RecOutcome where
  /-- Case `Err(e)` from the stream: "ERROR: Failed to read", `continue`. -/
  | decodeErr
  /-- Case where `parse_url` failed: "WARNING: No /wiki/", `continue`. -/
  | badUrl
  /-- Case where `create_dir_all` failed: "WARNING: Unable to create directory". -/
  | dirFail
  /-- Case where `skip_existing` is set and the target exists: `skipped.fetch_add(1)`. -/
  | skippedExisting
  /-- Case where `fs::write` succeeded: `count.fetch_add(1)`. -/
  | written
  /-- Case where `fs::write` failed: "ERROR: Failed to write", `continue`. -/
  | writeFail
  deriving DecidableEq

/-- The loop body of src/extract.rs lines 75-141 on one record. -/
def extract_processRecord (skipExisting : Bool) (targetDir : FsPath)
    (env : RecordEnv) : RecOutcome × List FsAction :=
  match env.decoded with
  | none => (.decodeErr, [])
  | some article =>
    match parse_url article.url with
    | none => (.badUrl, [])
    | some rawName =>
      let name := sanitize_name rawName
      let dir := extractShardDir targetDir name
      if !env.dirCreateOk then (.dirFail, [.createDirAll dir])
      else if skipExisting && env.targetExists then
        (.skippedExisting, [.createDirAll dir])
      else if env.writeOk then
        (.written, [.createDirAll dir,
                    .writeFile (dir ++ [name]) article.body.html])
      else (.writeFail, [.createDirAll dir])

/-- One worker's whole stream: outcomes in stream order. -/
def extract_runStream (skipExisting : Bool) (targetDir : FsPath)
    (envs : List RecordEnv) : List RecOutcome :=
  envs.map (fun env => (extract_processRecord skipExisting targetDir env).1)

/-- Number of records with a given outcome; the `count` and `skipped`
atomics of the source are exactly the `.written` and
`.skippedExisting` tallies, since those branches are the only
`fetch_add` sites. -/
def countOutcome (o : RecOutcome) (l : List RecOutcome) : Nat :=
  (l.filter (fun x => x = o)).length

/-- Counter increments performed by one record's branch:
`(processed delta, skipped delta)`, matching the two `fetch_add`
sites of src/extract.rs lines 106 and 114. -/
def outcomeCounterDelta : RecOutcome → Nat × Nat
  | .written => (1, 0)
  | .skippedExisting => (0, 1)
  | _ => (0, 0)

/-! ## The threaded listener front-end (src/extract/files.rs, src/extract/sql.rs)

`ParseEvent`, `ExtractError` and the listener trait live in the
extract module whose body is not in the sources; their shape is fixed
by the spec and by how files.rs and sql.rs consume them. -/

/-- Modelled from the spec: the extract module defining `ParseEvent`
is not among the sources; per §4.5 `count` is the monotonic processed
counter read by the per-record policy check, and files.rs/sql.rs
access `event.article` and `event.count`. -/
structure ParseEvent where
  article : ArticleEntry
  count : Nat
  deriving DecidableEq

/-- What a listener error downcasts to in the front-ends:
`CancelledError` or any other listener failure. -/
inductive ListenerSignal where
  | cancelledSig
  | failureSig
  deriving DecidableEq

/-- Modelled from the spec: the `ExtractError` enum of the missing
extract module, as consumed by files.rs line 127 and sql.rs line 130,
distinguishes listener-raised errors (matched and downcast) from
other fatal errors of the pipeline. -/
inductive ExtractErr where
  | listenerErr (s : ListenerSignal)
  | otherErr
  deriving DecidableEq

/-- Result of `FileExtractListener::on_parse`
(src/extract/files.rs lines 41-97): `Err(CancelledError)` or
`Ok(())` (every other branch returns `Ok`). -/
inductive FilesParseOutcome where
  | cancelled
  | okDone
  deriving DecidableEq

/-- Filesystem answers for one `on_parse` call, as in `RecordEnv`
but for an already-decoded event. -/
structure SinkEnv where
  dirCreateOk : Bool
  targetExists : Bool
  writeOk : Bool
  deriving DecidableEq

/-- The body of `FileExtractListener::on_parse`
(src/extract/files.rs lines 47-96) after the limit check: url parse,
optional nesting, directory creation, skip-existing check, write.
Returns the outcome, the new `skipped` counter and the filesystem
actions issued. -/
def files_on_parse_body (skipExisting noNesting : Bool) (targetDir : FsPath)
    (env : SinkEnv) (event : ParseEvent) (skipped : Nat) :
    FilesParseOutcome × Nat × List FsAction :=
  match parse_url event.article.url with
  | none => (.okDone, skipped, [])
  | some rawName =>
    let name := sanitize_name rawName
    let dir := if noNesting then targetDir else extractShardDir targetDir name
    if !env.dirCreateOk then (.okDone, skipped, [.createDirAll dir])
    else if skipExisting && env.targetExists then
      (.okDone, skipped + 1, [.createDirAll dir])
    else (.okDone, skipped,
          [.createDirAll dir, .writeFile (dir ++ [name]) event.article.body.html])

/-- Transcription of `FileExtractListener::on_parse` proper: the limit check
(lines 42-46) in front of the body. -/
def files_on_parse (limit : Option Nat) (skipExisting noNesting : Bool)
    (targetDir : FsPath) (env : SinkEnv) (event : ParseEvent)
    (skipped : Nat) : FilesParseOutcome × Nat × List FsAction :=
  match limit with
  | some l =>
    if event.count ≥ l then (.cancelled, skipped, [])
    else files_on_parse_body skipExisting noNesting targetDir env event skipped
  | none => files_on_parse_body skipExisting noNesting targetDir env event skipped

/-- A sequence of `on_parse` calls on one listener, threading
`skipped` and concatenating the filesystem actions. -/
def files_onParseRun (limit : Option Nat) (skipExisting noNesting : Bool)
    (targetDir : FsPath) : List (SinkEnv × ParseEvent) → Nat → Nat × List FsAction
  | [], skipped => (skipped, [])
  | (env, event) :: rest, skipped =>
    let r := files_on_parse limit skipExisting noNesting targetDir env event skipped
    let rec' := files_onParseRun limit skipExisting noNesting targetDir rest r.2.1
    (rec'.1, r.2.2 ++ rec'.2)

/-- Count of `createDirAll` calls in an action trace. -/
def countCreateDir (l : List FsAction) : Nat :=
  (l.filter (fun a => match a with | .createDirAll _ => true | _ => false)).length

/-- files.rs lines 125-129: the run succeeds when `wait()` returns
`Ok` or a listener error that downcasts to `CancelledError`; any
other error is returned to the caller. -/
def files_extractOutcome : Except ExtractErr Unit → Bool
  | .ok _ => true
  | .error (.listenerErr .cancelledSig) => true
  | .error _ => false

/-- sql.rs lines 126-133, one iteration of the worker loop: a
`run_extract` result that is `Ok` or a cancelled listener error lets
the worker continue cleanly; any other error makes the worker return
it. -/
def sql_workerStepOk : Except ExtractErr Unit → Bool
  | .ok _ => true
  | .error (.listenerErr .cancelledSig) => true
  | .error _ => false

/-! ## The relational listener (src/extract/sql.rs lines 41-74) -/

/-- Message `SqlArticleMessage` from src/extract/sql.rs; the compressed body
is a byte list. -/
structure SqlArticleMessage where
  name : Str
  url : Str
  count : Nat
  compressed_html : List Nat
  deriving DecidableEq

/-- Result of `SqlMessageListener::on_parse`: cancel, or send one
message into the bounded channel. -/
inductive SqlParseOutcome where
  | cancelled
  | sent (msg : SqlArticleMessage)
  deriving DecidableEq

/-- Transcription of `SqlMessageListener::on_parse` (src/extract/sql.rs lines 47-64):
limit check (`event.count > limit` raises `CancelledError`), then
compress the body and send the message. `compress` stands for
`zstd::encode_all` at level 1, an external codec taken as an
arbitrary function of the bytes. -/
def sql_on_parse (compress : Str → List Nat) (limit : Option Nat)
    (event : ParseEvent) : SqlParseOutcome :=
  match limit with
  | some l =>
    if event.count > l then .cancelled
    else .sent ⟨event.article.name, event.article.url, event.count,
                compress event.article.body.html⟩
  | none => .sent ⟨event.article.name, event.article.url, event.count,
                   compress event.article.body.html⟩

/-! ## The relational store and `serialize_article` (src/extract/sql.rs lines 75-114)

The schema (sql.rs lines 147-158): `article(id PRIMARY KEY, name
UNIQUE NOT NULL, url NOT NULL)` and `article_body(id, article_id,
compressed_html)`. SQLite semantics used by `serialize_article`:
`INSERT INTO article` fails with `ConstraintViolation` exactly when
the `name` is already present (the UNIQUE column), ids are assigned
by an increasing rowid and `last_insert_rowid()` returns the id of
the row just inserted, and a transaction that is dropped without
`commit` leaves the store unchanged. -/

/-- One `article` row: `(id, name, url)`. -/
structure ArticleRow where
  id : Nat
  name : Str
  url : Str
  deriving DecidableEq

/-- One `article_body` row: `(id, article_id, compressed_html)`. -/
structure BodyRow where
  id : Nat
  article_id : Nat
  compressed_html : List Nat
  deriving DecidableEq

/-- The relational store: the two tables and the next rowid of each. -/
structure Store where
  articles : List ArticleRow
  bodies : List BodyRow
  nextArticleId : Nat
  nextBodyId : Nat
  deriving DecidableEq

/-- Names present in the `article` table (the UNIQUE key). -/
def Store.names (st : Store) : List Str :=
  st.articles.map (fun r => r.name)

/-- Rows of `article` whose name is `n`. -/
def Store.rowsWithName (st : Store) (n : Str) : List ArticleRow :=
  st.articles.filter (fun r => r.name = n)

/-- Transcription of `serialize_article` (src/extract/sql.rs lines 75-114): inside
one transaction, insert into `article`; a uniqueness violation
(the name already present) increments `skipped`, drops the
transaction and returns `Ok`; otherwise insert the body row keyed by
`last_insert_rowid()` and commit. The only error path of the source
is a database failure other than the constraint violation, which the
pure store cannot produce, so the model returns the new store and
`skipped` counter directly. -/
def serialize_article (st : Store) (skipped : Nat)
    (message : SqlArticleMessage) : Store × Nat :=
  if message.name ∈ st.names then
    (st, skipped + 1)
  else
    ({ articles := st.articles ++ [⟨st.nextArticleId, message.name, message.url⟩],
       bodies := st.bodies ++ [⟨st.nextBodyId, st.nextArticleId, message.compressed_html⟩],
       nextArticleId := st.nextArticleId + 1,
       nextBodyId := st.nextBodyId + 1 }, skipped)

/-! ## Front-end orchestration (src/extract.rs lines 39-55, src/extract/sql.rs lines 137-191)

Each front-end's behavior before and at worker spawn, as a function
of a filesystem oracle `isFile`. -/

/-- How the filesystem front-end's pre-spawn phase ends
(src/extract.rs lines 50-55): the first target that is not a file
aborts the process with exit code 1 before `crossbeam::scope` spawns
anything; otherwise one worker is spawned per target. -/
inductive ExtractMainResult where
  | exitNotAFile (p : Str)
  | spawned (workers : List Str)
  deriving DecidableEq

/-- src/extract.rs lines 50-64: validate every target with
`is_file`, exiting at the first failure, then spawn one worker per
target path. -/
def extractCmd_run (isFile : Str → Bool) (targets : List Str) : ExtractMainResult :=
  match targets.find? (fun p => !isFile p) with
  | some p => .exitNotAFile p
  | none => .spawned targets

/-- Observable steps of the relational front-end's setup phase. -/
inductive SqlEvent where
  | createSchema
  | spawnWorker (i : Nat)
  | sendPath (p : Str)
  deriving DecidableEq

/-- src/extract/sql.rs lines 137-191 up to the send loop: create the
schema when the output database is not yet a file, spawn
`workers`-many workers, then send every target path into the path
channel. The target paths' existence is never consulted in this
phase. -/
def sqlExtract_events (isFile : Str → Bool) (output : Str)
    (workers : Nat) (targets : List Str) : List SqlEvent :=
  (if isFile output then [] else [.createSchema])
    ++ (List.range workers).map .spawnWorker
    ++ targets.map .sendPath

/-! ## The ensure-nested retrofit (src/ensure_nested.rs lines 67-131)

`process_file` moves one flat file into its shard directory, sharing
a mutex-guarded `existing_dirs` set across the 15 workers. Here one
sequential call is modelled: the set is a list of paths, the
filesystem answers `create_dir_all` and `rename` through an
environment, and the issued calls are recorded. The flat file sits
directly in `target_dir` under its `file_name`, as produced by the
`read_dir` loop. -/

/-- Filesystem calls `process_file` issues. -/
inductive NestAction where
  | createDirAll (p : FsPath)
  | moveFile (src : FsPath) (dst : FsPath)
  deriving DecidableEq

/-- Filesystem answers for one `process_file` call. -/
structure EnsureEnv where
  createOk : Bool
  renameOk : Bool
  deriving DecidableEq

/-- Transcription of `process_file` (src/ensure_nested.rs lines 67-131): compute the
shard directory, check the shared `existing_dirs` set; only when the
directory is not in the set call `create_dir_all`, inserting it into
the set on success (warn and return on failure); then rename the
flat file into the shard directory. Returns the updated set, whether
the file was moved (the counter increment), and the issued calls. -/
def ensure_process_file (targetDir : FsPath) (existingDirs : List FsPath)
    (env : EnsureEnv) (name : Str) : List FsPath × Bool × List NestAction :=
  let dir := ensureNestedShardDir targetDir name
  if dir ∈ existingDirs then
    (existingDirs, env.renameOk,
     [.moveFile (targetDir ++ [name]) (dir ++ [name])])
  else if env.createOk then
    (dir :: existingDirs, env.renameOk,
     [.createDirAll dir, .moveFile (targetDir ++ [name]) (dir ++ [name])])
  else
    (existingDirs, false, [.createDirAll dir])

/-- Count of `createDirAll` calls in a `process_file` trace. -/
def countNestCreate (l : List NestAction) : Nat :=
  (l.filter (fun a => match a with | .createDirAll _ => true | _ => false)).length

/-! ## The agreement relation for sanitization collisions

"Two raw keys that differ only outside the occurrences of the
escaped characters": position by position, wherever either key has
one of `'/'`, `':'`, `'*'`, both keys carry that same character, and
any length excess of either key contains none of them. -/

/-- Relation `agreeOutside s t`: `s` and `t` coincide at every position where
either of them holds a dangerous character. -/
def agreeOutside : Str → Str → Bool
  | [], t => t.all (fun b => !dangerous b)
  | a :: s, [] => !dangerous a && agreeOutside s []
  | a :: s, b :: t =>
    ((!(dangerous a || dangerous b)) || a = b) && agreeOutside s t

/-! ## Concrete sample data for witnesses and counterexamples -/

/-- A well-formed sample article whose url contains the marker. -/
def sampleArticle : ArticleEntry :=
  ⟨"A".toList, "https://en.wikipedia.org/wiki/A".toList, ⟨"<p>hi</p>".toList⟩⟩

/-- A record environment in which everything succeeds except the
final `fs::write`. -/
def writeFailEnv : RecordEnv :=
  ⟨some sampleArticle, true, false, false⟩

/-- A record environment in which the target file already exists. -/
def existsEnv : RecordEnv :=
  ⟨some sampleArticle, true, true, true⟩

/-- A sink environment in which everything succeeds. -/
def okSinkEnv : SinkEnv := ⟨true, false, true⟩

/-- A sample parse event carrying `sampleArticle`. -/
def sampleEvent : ParseEvent := ⟨sampleArticle, 0⟩

/-- A store already holding the article named `"A.html"`. -/
def storeWithA : Store :=
  ⟨[⟨1, "A.html".toList, "u".toList⟩], [⟨1, 1, [3]⟩], 2, 2⟩

/-! # Theorems -/

/-! ## Sanitization (claims C5, C10) -/

theorem replaceChar_append (c : Char) (r : Str) (a b : Str) :
    replaceChar c r (a ++ b) = replaceChar c r a ++ replaceChar c r b := by
  induction a with
  | nil => rfl
  | cons x xs ih => simp [replaceChar, ih]

theorem sanitize_nil : sanitize_name [] = [] := rfl

theorem sanitize_single (x : Char) :
    replaceChar '*' starEsc (replaceChar ':' colonEsc
      (if x = '/' then slashEsc else [x])) = escChar x := by
  by_cases h1 : x = '/'
  · subst h1; decide
  · rw [if_neg h1]
    by_cases h2 : x = ':'
    · subst h2
      rw [escChar, if_neg h1, if_pos rfl]
      decide
    · by_cases h3 : x = '*'
      · subst h3
        rw [escChar, if_neg h1, if_neg h2, if_pos rfl]
        decide
      · simp [replaceChar, escChar, h1, h2, h3]

theorem sanitize_cons (x : Char) (s : Str) :
    sanitize_name (x :: s) = escChar x ++ sanitize_name s := by
  show replaceChar '*' starEsc (replaceChar ':' colonEsc
    ((if x = '/' then slashEsc else [x]) ++ replaceChar '/' slashEsc s)) = _
  rw [replaceChar_append, replaceChar_append, sanitize_single]
  rfl

theorem escChar_ne_nil (c : Char) : escChar c ≠ [] := by
  unfold escChar
  split
  · decide
  · split
    · decide
    · split
      · decide
      · simp

theorem escChar_of_not_dangerous {c : Char} (h : dangerous c = false) :
    escChar c = [c] := by
  unfold dangerous at h
  simp only [Bool.or_eq_false_iff, decide_eq_false_iff_not] at h
  simp [escChar, h.1.1, h.1.2, h.2]

theorem escChar_all_safe (c : Char) :
    (escChar c).all (fun d => !dangerous d) = true := by
  by_cases h1 : c = '/'
  · subst h1; decide
  · by_cases h2 : c = ':'
    · subst h2; decide
    · by_cases h3 : c = '*'
      · subst h3; decide
      · have hd : dangerous c = false := by
          unfold dangerous
          simp [h1, h2, h3]
        rw [escChar_of_not_dangerous hd]
        simp [hd]

theorem sanitize_all_safe (s : Str) :
    (sanitize_name s).all (fun d => !dangerous d) = true := by
  induction s with
  | nil => rfl
  | cons x xs ih =>
    rw [sanitize_cons, List.all_append, escChar_all_safe, ih]
    rfl

theorem sanitize_of_all_safe {s : Str}
    (h : s.all (fun d => !dangerous d) = true) : sanitize_name s = s := by
  induction s with
  | nil => rfl
  | cons x xs ih =>
    simp only [List.all_cons, Bool.and_eq_true, Bool.not_eq_true'] at h
    rw [sanitize_cons, escChar_of_not_dangerous h.1,
        ih (by simpa using h.2)]
    rfl

/-- C10: `sanitize_name` emits none of `'/'`, `':'`, `'*'` — so every
sanitized key is a single path component — and is idempotent. -/
theorem c10_sanitize_safe_idempotent (s : Str) :
    '/' ∉ sanitize_name s ∧ ':' ∉ sanitize_name s ∧ '*' ∉ sanitize_name s
      ∧ sanitize_name (sanitize_name s) = sanitize_name s := by
  have hall := sanitize_all_safe s
  have hmem : ∀ c, c ∈ sanitize_name s → dangerous c = false := by
    intro c hc
    have := List.all_eq_true.mp hall c hc
    simpa using this
  refine ⟨fun hc => ?_, fun hc => ?_, fun hc => ?_, sanitize_of_all_safe hall⟩
  · have := hmem _ hc
    exact absurd this (by decide)
  · have := hmem _ hc
    exact absurd this (by decide)
  · have := hmem _ hc
    exact absurd this (by decide)

theorem sanitize_agree_inj : ∀ (s t : Str), agreeOutside s t = true →
    sanitize_name s = sanitize_name t → s = t := by
  intro s
  induction s with
  | nil =>
    intro t hagree hsan
    cases t with
    | nil => rfl
    | cons b t' =>
      exfalso
      rw [sanitize_nil, sanitize_cons] at hsan
      exact escChar_ne_nil b (List.append_eq_nil.mp hsan.symm).1
  | cons a s' ih =>
    intro t hagree hsan
    cases t with
    | nil =>
      exfalso
      rw [sanitize_cons, sanitize_nil] at hsan
      exact escChar_ne_nil a (List.append_eq_nil.mp hsan).1
    | cons b t' =>
      rw [sanitize_cons, sanitize_cons] at hsan
      simp only [agreeOutside, Bool.and_eq_true] at hagree
      obtain ⟨hhead, htail⟩ := hagree
      have hab : a = b := by
        rcases hor : (dangerous a || dangerous b) with _ | _
        · have hda : dangerous a = false := (Bool.or_eq_false_iff.mp hor).1
          have hdb : dangerous b = false := (Bool.or_eq_false_iff.mp hor).2
          rw [escChar_of_not_dangerous hda, escChar_of_not_dangerous hdb] at hsan
          simp only [List.singleton_append] at hsan
          exact (List.cons_eq_cons.mp hsan).1
        · rw [hor] at hhead
          simpa using hhead
      subst hab
      have htails : sanitize_name s' = sanitize_name t' :=
        List.append_cancel_left hsan
      rw [ih t' htail htails]

/-- C5 counterexample: `sanitize_name` is not injective on all
distinct raw keys — the raw key `"/"` and the raw key `"__"` are
distinct yet sanitize to the same string `"__"`. -/
theorem c5_cex :
    "/".toList ≠ "__".toList
      ∧ sanitize_name "/".toList = sanitize_name "__".toList := by
  decide

/-- C5 (amended): totality is by construction; on raw keys that
differ only outside the occurrences of `'/'`, `':'`, `'*'`
(`agreeOutside`), distinct keys sanitize to distinct strings; and
the three escape sequences are pairwise distinct. Full injectivity
on arbitrary distinct keys fails (see the counterexample). -/
theorem c5_sanitize_restricted_injective :
    (∀ s t : Str, s ≠ t → agreeOutside s t = true →
        sanitize_name s ≠ sanitize_name t)
      ∧ slashEsc ≠ colonEsc ∧ slashEsc ≠ starEsc ∧ colonEsc ≠ starEsc := by
  refine ⟨fun s t hne hagree hsan => hne (sanitize_agree_inj s t hagree hsan),
          by decide, by decide, by decide⟩

/-- C5 witness: the amended theorem applied to the concrete distinct
keys `"ab:c"` and `"ad:c"`, which agree at their dangerous
positions. -/
theorem c5_witness :
    sanitize_name "ab:c".toList ≠ sanitize_name "ad:c".toList :=
  c5_sanitize_restricted_injective.1 "ab:c".toList "ad:c".toList
    (by decide) (by decide)

/-! ## URL parsing (claim C7) -/

theorem leadsWith_iff (p : Str) : ∀ s : Str,
    leadsWith p s = true ↔ ∃ t, s = p ++ t := by
  induction p with
  | nil =>
    intro s
    simp [leadsWith]
  | cons a as_ ih =>
    intro s
    cases s with
    | nil =>
      simp only [leadsWith]
      constructor
      · intro h
        cases h
      · rintro ⟨t, ht⟩
        cases ht
    | cons b bs =>
      simp only [leadsWith, Bool.and_eq_true, decide_eq_true_eq, ih bs,
                 List.cons_append]
      constructor
      · rintro ⟨rfl, t, rfl⟩
        exact ⟨t, rfl⟩
      · rintro ⟨t, ht⟩
        obtain ⟨rfl, rfl⟩ := List.cons_eq_cons.mp ht
        exact ⟨rfl, t, rfl⟩

theorem strFind_some (pat : Str) : ∀ (s : Str) (i : Nat),
    strFind pat s = some i →
      leadsWith pat (s.drop i) = true
        ∧ ∀ j, j < i → leadsWith pat (s.drop j) = false := by
  intro s
  induction s with
  | nil =>
    intro i h
    simp only [strFind] at h
    split at h
    · cases h
      exact ⟨by assumption, fun j hj => absurd hj (Nat.not_lt_zero j)⟩
    · cases h
  | cons c rest ih =>
    intro i h
    simp only [strFind] at h
    split at h
    · cases h
      exact ⟨by assumption, fun j hj => absurd hj (Nat.not_lt_zero j)⟩
    · cases hmap : strFind pat rest with
      | none => rw [hmap] at h; cases h
      | some k =>
        rw [hmap] at h
        simp only [Option.map_some'] at h
        cases h
        obtain ⟨h1, h2⟩ := ih k hmap
        refine ⟨h1, fun j hj => ?_⟩
        cases j with
        | zero =>
          simpa using (by assumption : ¬ leadsWith pat (c :: rest) = true)
        | succ j' =>
          exact h2 j' (Nat.lt_of_succ_lt_succ hj)

theorem strFind_none (pat : Str) : ∀ s : Str,
    strFind pat s = none → ∀ j, leadsWith pat (s.drop j) = false := by
  intro s
  induction s with
  | nil =>
    intro h j
    simp only [strFind] at h
    split at h
    · cases h
    · simpa using (by assumption : ¬ leadsWith pat [] = true)
  | cons c rest ih =>
    intro h j
    simp only [strFind] at h
    split at h
    · cases h
    · cases hmap : strFind pat rest with
      | some k => rw [hmap] at h; cases h
      | none =>
        cases j with
        | zero =>
          simpa using (by assumption : ¬ leadsWith pat (c :: rest) = true)
        | succ j' => exact ih hmap j'

/-- C7: for every url, when `"/wiki/"` occurs in it `parse_url`
returns the suffix after the first (leftmost) occurrence with
`".html"` appended, and when it does not occur `parse_url` returns
the error case. Determinism and totality are by construction:
`parse_url` is a function defined on every string. -/
theorem c7_parse_url (url : Str) :
    ((∃ a b, url = a ++ wikiMarker ++ b) →
       ∃ a b, url = a ++ wikiMarker ++ b
         ∧ (∀ a' b', url = a' ++ wikiMarker ++ b' → a.length ≤ a'.length)
         ∧ parse_url url = some (b ++ htmlExt))
      ∧ ((∀ a b, url ≠ a ++ wikiMarker ++ b) → parse_url url = none) := by
  cases hfind : strFind wikiMarker url with
  | none =>
    constructor
    · rintro ⟨a, b, rfl⟩
      have := strFind_none wikiMarker _ hfind a.length
      rw [List.append_assoc, List.drop_left] at this
      have h2 : leadsWith wikiMarker (wikiMarker ++ b) = true :=
        (leadsWith_iff wikiMarker _).mpr ⟨b, rfl⟩
      rw [this] at h2
      cases h2
    · intro _
      simp [parse_url, hfind]
  | some i =>
    obtain ⟨h1, h2⟩ := strFind_some wikiMarker url i hfind
    obtain ⟨t, ht⟩ := (leadsWith_iff wikiMarker _).mp h1
    have hb : url.drop (i + wikiMarker.length) = t := by
      rw [← List.drop_drop, ht, List.drop_left]
    have hurl : url = url.take i ++ wikiMarker ++ t := by
      conv_lhs => rw [← List.take_append_drop i url]
      rw [ht, List.append_assoc]
    constructor
    · intro _
      refine ⟨url.take i, t, hurl, ?_, ?_⟩
      · intro a' b' hsplit
        by_contra hlt
        push_neg at hlt
        have hlen : (url.take i).length ≤ i := List.length_take_le i url
        have hja : leadsWith wikiMarker (url.drop a'.length) = true := by
          rw [hsplit, List.append_assoc, List.drop_left]
          exact (leadsWith_iff wikiMarker _).mpr ⟨b', rfl⟩
        have : leadsWith wikiMarker (url.drop a'.length) = false :=
          h2 a'.length (Nat.lt_of_lt_of_le hlt hlen)
        rw [this] at hja
        cases hja
      · simp [parse_url, hfind, hb]
    · intro hnone
      exact absurd hurl (hnone (url.take i) t)

/-- C7 witness: the theorem applied to the concrete url
`"https://x.org/wiki/A"`, discharging the occurrence hypothesis. -/
theorem c7_witness :
    ∃ a b, "https://x.org/wiki/A".toList = a ++ wikiMarker ++ b
      ∧ (∀ a' b', "https://x.org/wiki/A".toList = a' ++ wikiMarker ++ b' →
           a.length ≤ a'.length)
      ∧ parse_url "https://x.org/wiki/A".toList = some (b ++ htmlExt) :=
  (c7_parse_url "https://x.org/wiki/A".toList).1
    ⟨"https://x.org".toList, "A".toList, by decide⟩

/-! ## Shard paths (claim C6) -/

/-- C6: for a non-empty key the computed target path is
`baseDir/c1/c2/key` with `c1`, `c2` the first two scalar values, or
`baseDir/c1/key` for a single-scalar key; and the extract pipeline
and the ensure-nested retrofit derive the identical path from the
same key and base directory. -/
theorem c6_shard_path (d : FsPath) (k : Str) (h : k ≠ []) :
    ((∃ c, k = [c] ∧ extractShardPath d k = d ++ [[c], k])
      ∨ (∃ c1 c2 rest, k = c1 :: c2 :: rest
           ∧ extractShardPath d k = d ++ [[c1], [c2], k]))
      ∧ extractShardPath d k = ensureNestedShardPath d k := by
  match k with
  | [] => exact absurd rfl h
  | [c] =>
    refine ⟨Or.inl ⟨c, rfl, ?_⟩, rfl⟩
    simp [extractShardPath, extractShardDir]
  | c1 :: c2 :: rest =>
    refine ⟨Or.inr ⟨c1, c2, rest, rfl, ?_⟩, rfl⟩
    simp [extractShardPath, extractShardDir]

/-- C6 witness: the theorem applied to the key `"ab"` under an empty
base directory. -/
theorem c6_witness :
    extractShardPath [] "ab".toList = ensureNestedShardPath [] "ab".toList :=
  (c6_shard_path [] "ab".toList (by decide)).2

/-! ## Record accounting (claim C1) -/

theorem countOutcome_cons (o x : RecOutcome) (l : List RecOutcome) :
    countOutcome o (x :: l) =
      (if x = o then 1 else 0) + countOutcome o l := by
  simp only [countOutcome, List.filter_cons]
  by_cases h : x = o
  · simp [h, Nat.add_comm]
  · simp [h]

theorem countOutcome_partition (l : List RecOutcome) :
    countOutcome .written l + countOutcome .skippedExisting l
      + countOutcome .decodeErr l + countOutcome .badUrl l
      + countOutcome .dirFail l + countOutcome .writeFail l = l.length := by
  induction l with
  | nil => rfl
  | cons x xs ih =>
    rw [countOutcome_cons, countOutcome_cons, countOutcome_cons,
        countOutcome_cons, countOutcome_cons, countOutcome_cons,
        List.length_cons]
    cases x <;> simp <;> omega

/-- C1 counterexample: a run over one stream holding one well-formed
record (its url contains the marker) whose final `fs::write` fails:
the record is read, but successful writes, skips and decode errors
all stay 0, so their sum is not the number of records read. -/
theorem c1_cex :
    countOutcome .written (extract_runStream false [] [writeFailEnv])
        + countOutcome .skippedExisting (extract_runStream false [] [writeFailEnv])
        + countOutcome .decodeErr (extract_runStream false [] [writeFailEnv])
      ≠ [writeFailEnv].length := by
  decide

/-- C1 (amended): every record read from a stream is counted by
exactly one of the six per-record branches, so successful writes
plus skips plus decode errors plus url-parse failures plus
directory-creation failures plus write failures equal the number of
records read; the claimed three-term sum holds only when the last
three classes are empty. -/
theorem c1_record_accounting (skipExisting : Bool) (targetDir : FsPath)
    (envs : List RecordEnv) :
    countOutcome .written (extract_runStream skipExisting targetDir envs)
      + countOutcome .skippedExisting (extract_runStream skipExisting targetDir envs)
      + countOutcome .decodeErr (extract_runStream skipExisting targetDir envs)
      + countOutcome .badUrl (extract_runStream skipExisting targetDir envs)
      + countOutcome .dirFail (extract_runStream skipExisting targetDir envs)
      + countOutcome .writeFail (extract_runStream skipExisting targetDir envs)
      = envs.length := by
  rw [countOutcome_partition]
  simp [extract_runStream]

/-! ## Skip-existing behavior (claim C9) -/

theorem processRecord_not_written_of_exists (dir : FsPath) (env : RecordEnv)
    (hex : env.targetExists = true) :
    (extract_processRecord true dir env).1 ≠ .written := by
  unfold extract_processRecord
  cases hdec : env.decoded with
  | none => simp
  | some a =>
    cases hp : parse_url a.url with
    | none => simp [hp]
    | some r => cases hdc : env.dirCreateOk <;> simp [hp, hdc, hex]

/-- C9: with `skipExisting` on and the target file present, the
record takes the skip branch: the only filesystem call is the
(earlier) directory creation — no write touches the file — the
skipped counter gains one while the processed counter does not move,
and the listener variant returns `Ok`; consequently a run in which
every record's target already exists performs zero writes. -/
theorem c9_skip_existing :
    (∀ (dir : FsPath) (env : RecordEnv) (a : ArticleEntry) (r : Str),
        env.decoded = some a → parse_url a.url = some r →
        env.dirCreateOk = true → env.targetExists = true →
        extract_processRecord true dir env
            = (.skippedExisting,
               [.createDirAll (extractShardDir dir (sanitize_name r))])
          ∧ outcomeCounterDelta (extract_processRecord true dir env).1 = (0, 1))
    ∧ (∀ (dir : FsPath) (envs : List RecordEnv),
        (∀ env ∈ envs, env.targetExists = true) →
        countOutcome .written (extract_runStream true dir envs) = 0)
    ∧ (∀ (noNest : Bool) (dir : FsPath) (env : SinkEnv) (event : ParseEvent)
        (skipped : Nat) (r : Str),
        parse_url event.article.url = some r →
        env.dirCreateOk = true → env.targetExists = true →
        files_on_parse_body true noNest dir env event skipped
          = (.okDone, skipped + 1,
             [.createDirAll
               (if noNest then dir
                else extractShardDir dir (sanitize_name r))])) := by
  refine ⟨?_, ?_, ?_⟩
  · intro dir env a r hdec hp hdc hex
    constructor
    · simp [extract_processRecord, hdec, hp, hdc, hex]
    · simp [extract_processRecord, hdec, hp, hdc, hex, outcomeCounterDelta]
  · intro dir envs hall
    induction envs with
    | nil => rfl
    | cons env rest ih =>
      have hhead := processRecord_not_written_of_exists dir env
        (hall env (List.mem_cons_self env rest))
      have htail := ih (fun e he => hall e (List.mem_cons_of_mem env he))
      simp only [extract_runStream, List.map_cons] at htail ⊢
      rw [countOutcome_cons, htail, if_neg hhead]
  · intro noNest dir env event skipped r hp hdc hex
    simp [files_on_parse_body, hp, hdc, hex]

/-- C9 witness: the per-record part of the theorem applied to a
concrete environment whose target file exists. -/
theorem c9_witness :
    extract_processRecord true [] existsEnv
        = (.skippedExisting,
           [.createDirAll (extractShardDir [] (sanitize_name "A.html".toList))])
      ∧ outcomeCounterDelta (extract_processRecord true [] existsEnv).1 = (0, 1) :=
  c9_skip_existing.1 [] existsEnv sampleArticle "A.html".toList
    (by decide) (by decide) rfl rfl

/-! ## The relational sink on duplicates (claim C2) -/

/-- C2: writing a message whose name already has an `article` row
leaves the store exactly as it was (no `article` row, no
`article_body` row), bumps `skipped` by one, and — the uniqueness
violation being swallowed — the call is a success; hence inserting
the same canonical name twice stores exactly one row for it. -/
theorem c2_duplicate_insert :
    (∀ (st : Store) (skipped : Nat) (msg : SqlArticleMessage),
        msg.name ∈ st.names →
        serialize_article st skipped msg = (st, skipped + 1))
    ∧ (∀ (st : Store) (s1 s2 : Nat) (m1 m2 : SqlArticleMessage),
        m1.name ∉ st.names → m2.name = m1.name →
        (serialize_article (serialize_article st s1 m1).1 s2 m2).1
            = (serialize_article st s1 m1).1
          ∧ (serialize_article (serialize_article st s1 m1).1 s2 m2).2 = s2 + 1
          ∧ ((serialize_article (serialize_article st s1 m1).1 s2 m2).1.rowsWithName
                m1.name).length = 1) := by
  refine ⟨fun st skipped msg h => by simp [serialize_article, h], ?_⟩
  intro st s1 s2 m1 m2 hnot heq
  have hser : serialize_article st s1 m1 =
      ({ articles := st.articles ++ [⟨st.nextArticleId, m1.name, m1.url⟩],
         bodies := st.bodies ++ [⟨st.nextBodyId, st.nextArticleId, m1.compressed_html⟩],
         nextArticleId := st.nextArticleId + 1,
         nextBodyId := st.nextBodyId + 1 }, s1) := by
    simp [serialize_article, hnot]
  have hmem : m2.name ∈ (serialize_article st s1 m1).1.names := by
    rw [hser, heq]
    simp [Store.names]
  have hdupGen : ∀ stx : Store, m2.name ∈ stx.names →
      serialize_article stx s2 m2 = (stx, s2 + 1) := fun stx hx => by
    simp [serialize_article, hx]
  have hdup : serialize_article (serialize_article st s1 m1).1 s2 m2
      = ((serialize_article st s1 m1).1, s2 + 1) :=
    hdupGen (serialize_article st s1 m1).1 hmem
  refine ⟨by rw [hdup], by rw [hdup], ?_⟩
  rw [hdup, hser]
  simp only [Store.rowsWithName, List.filter_append]
  have hfil : st.articles.filter (fun r => r.name = m1.name) = [] := by
    rw [List.filter_eq_nil_iff]
    intro r hr
    simp only [decide_eq_true_eq]
    intro hrn
    have hmm : r.name ∈ st.names := by
      unfold Store.names
      exact List.mem_map_of_mem (fun q => q.name) hr
    rw [hrn] at hmm
    exact hnot hmm
  rw [hfil]
  simp

/-- C2 witness: the duplicate branch of the theorem applied to a
concrete store already holding the name `"A.html"`. -/
theorem c2_witness :
    serialize_article storeWithA 0 ⟨"A.html".toList, "v".toList, 7, [9]⟩
      = (storeWithA, 1) :=
  c2_duplicate_insert.1 storeWithA 0
    ⟨"A.html".toList, "v".toList, 7, [9]⟩ (by decide)

/-! ## Limit-based cancellation (claim C3) -/

theorem files_on_parse_body_ok (skipEx noNest : Bool) (dir : FsPath)
    (env : SinkEnv) (event : ParseEvent) (skipped : Nat) :
    (files_on_parse_body skipEx noNest dir env event skipped).1 = .okDone := by
  cases hp : parse_url event.article.url with
  | none => simp [files_on_parse_body, hp]
  | some r =>
    simp only [files_on_parse_body, hp]
    split
    · rfl
    · split <;> rfl

/-- C3 counterexample: with a configured limit of `K = 5` and the
processed count exactly `5` (so `processed ≥ limit` holds), the
relational listener does not raise the cancellation signal — its
check is `count > limit`, so it still sends the record. -/
theorem c3_cex :
    5 ≥ 5
      ∧ sql_on_parse (fun _ => []) (some 5) { article := sampleArticle, count := 5 }
          ≠ SqlParseOutcome.cancelled := by
  refine ⟨by decide, by decide⟩

/-- C3 (amended): the filesystem listener cancels exactly when the
processed count has reached the limit (`count ≥ K`), while the
relational listener cancels only when the count has exceeded it
(`count > K`); in both front-ends the cancellation signal is
distinguished from genuine failures — a cancelled listener error is
treated as success while every other error is surfaced. -/
theorem c3_limit_cancellation :
    (∀ (K : Nat) (skipEx noNest : Bool) (dir : FsPath) (env : SinkEnv)
        (event : ParseEvent) (skipped : Nat),
        ((files_on_parse (some K) skipEx noNest dir env event skipped).1
            = FilesParseOutcome.cancelled ↔ K ≤ event.count))
    ∧ (∀ (compress : Str → List Nat) (K : Nat) (event : ParseEvent),
        (sql_on_parse compress (some K) event = SqlParseOutcome.cancelled
          ↔ K < event.count))
    ∧ files_extractOutcome (.error (.listenerErr .cancelledSig)) = true
    ∧ sql_workerStepOk (.error (.listenerErr .cancelledSig)) = true
    ∧ files_extractOutcome (.error (.listenerErr .failureSig)) = false
    ∧ files_extractOutcome (.error .otherErr) = false
    ∧ sql_workerStepOk (.error (.listenerErr .failureSig)) = false
    ∧ sql_workerStepOk (.error .otherErr) = false := by
  refine ⟨?_, ?_, rfl, rfl, rfl, rfl, rfl, rfl⟩
  · intro K skipEx noNest dir env event skipped
    simp only [files_on_parse]
    by_cases h : event.count ≥ K
    · simp [h]
    · simp [h, files_on_parse_body_ok]
  · intro compress K event
    simp only [sql_on_parse]
    by_cases h : event.count > K
    · simp [h]
    · simp [h]

/-! ## Input validation before spawning (claim C4) -/

/-- C4 counterexample: for the relational front-end, with a
filesystem in which no path exists (in particular the single input
target), the setup phase still spawns worker 0 — the targets'
existence is never consulted before spawning. -/
theorem c4_cex :
    (fun _ => false : Str → Bool) "input".toList = false
      ∧ SqlEvent.spawnWorker 0
          ∈ sqlExtract_events (fun _ => false) "out.db".toList 4 ["input".toList] := by
  refine ⟨rfl, by decide⟩

/-- C4 (amended): the filesystem front-end validates every target
before `crossbeam::scope`: if some target is not a file it exits
(code 1) naming a non-file target and spawns nothing, and if all
targets are files it spawns one worker per target; the relational
front-end however performs no such pre-spawn validation — it spawns
its workers (whenever the worker count is positive) regardless of
whether any input path exists. -/
theorem c4_input_validation :
    (∀ (isFile : Str → Bool) (targets : List Str),
        (∃ p ∈ targets, isFile p = false) →
        ∃ p, extractCmd_run isFile targets = .exitNotAFile p ∧ isFile p = false)
    ∧ (∀ (isFile : Str → Bool) (targets : List Str),
        (∀ p ∈ targets, isFile p = true) →
        extractCmd_run isFile targets = .spawned targets)
    ∧ (∀ (isFile : Str → Bool) (output : Str) (workers : Nat) (targets : List Str),
        0 < workers →
        SqlEvent.spawnWorker 0 ∈ sqlExtract_events isFile output workers targets) := by
  refine ⟨?_, ?_, ?_⟩
  · rintro isFile targets ⟨p, hp, hpf⟩
    have hsome : (targets.find? (fun q => !isFile q)).isSome :=
      List.find?_isSome.mpr ⟨p, hp, by simp [hpf]⟩
    obtain ⟨q, hq⟩ := Option.isSome_iff_exists.mp hsome
    refine ⟨q, by simp [extractCmd_run, hq], ?_⟩
    have := List.find?_some hq
    simpa using this
  · intro isFile targets hall
    have hnone : targets.find? (fun q => !isFile q) = none :=
      List.find?_eq_none.mpr (fun x hx => by simp [hall x hx])
    simp [extractCmd_run, hnone]
  · intro isFile output workers targets hw
    simp only [sqlExtract_events, List.mem_append]
    refine Or.inl (Or.inr ?_)
    simp only [List.mem_map, List.mem_range]
    exact ⟨0, hw, rfl⟩

/-- C4 witness: the validating branch applied to a concrete missing
input for the filesystem front-end. -/
theorem c4_witness :
    ∃ p, extractCmd_run (fun _ => false) ["in0".toList]
        = ExtractMainResult.exitNotAFile p
      ∧ (fun _ => false : Str → Bool) p = false :=
  c4_input_validation.1 (fun _ => false) ["in0".toList]
    ⟨"in0".toList, by simp, rfl⟩

/-! ## Memoized shard-directory creation (claim C8) -/

/-- C8 counterexample: the filesystem sink keeps no existence set —
two consecutive `on_parse` calls writing the same key into the same
shard directory issue two `create_dir_all` calls, not one. -/
theorem c8_cex :
    countCreateDir
        (files_onParseRun none false false []
          [(okSinkEnv, sampleEvent), (okSinkEnv, sampleEvent)] 0).2 = 2
      ∧ ¬ countCreateDir
          (files_onParseRun none false false []
            [(okSinkEnv, sampleEvent), (okSinkEnv, sampleEvent)] 0).2 ≤ 1 := by
  refine ⟨by decide, by decide⟩

/-- C8 (amended): the memoized check-then-create against the shared
existence set belongs to the ensure-nested retrofit: once a shard
directory is in the set, `process_file` issues no further
`create_dir_all` and leaves the set unchanged. The filesystem sink
itself calls `create_dir_all` unconditionally: every record whose
url parses issues exactly one directory-creation call. -/
theorem c8_memoized_dir_creation :
    (∀ (targetDir : FsPath) (S : List FsPath) (env : EnsureEnv) (name : Str),
        ensureNestedShardDir targetDir name ∈ S →
        (ensure_process_file targetDir S env name).1 = S
          ∧ countNestCreate (ensure_process_file targetDir S env name).2.2 = 0)
    ∧ (∀ (skipEx noNest : Bool) (dir : FsPath) (env : SinkEnv)
        (event : ParseEvent) (skipped : Nat) (r : Str),
        parse_url event.article.url = some r →
        countCreateDir (files_on_parse_body skipEx noNest dir env event skipped).2.2
          = 1) := by
  constructor
  · intro targetDir S env name h
    constructor
    · simp [ensure_process_file, h]
    · simp [ensure_process_file, h, countNestCreate]
  · intro skipEx noNest dir env event skipped r hp
    simp only [files_on_parse_body, hp]
    split
    · simp [countCreateDir]
    · split
      · simp [countCreateDir]
      · simp [countCreateDir]

/-- C8 witness: the memoized branch applied to a concrete set
already holding the shard directory of the key `"ab"`. -/
theorem c8_witness :
    (ensure_process_file [] [ensureNestedShardDir [] "ab".toList]
        ⟨true, true⟩ "ab".toList).1 = [ensureNestedShardDir [] "ab".toList]
      ∧ countNestCreate
          (ensure_process_file [] [ensureNestedShardDir [] "ab".toList]
            ⟨true, true⟩ "ab".toList).2.2 = 0 :=
  c8_memoized_dir_creation.1 [] [ensureNestedShardDir [] "ab".toList]
    ⟨true, true⟩ "ab".toList (by decide)

/-- C1 witness: the amended accounting applied to the concrete
one-record run of the counterexample environment. -/
theorem c1_witness :
    countOutcome .written (extract_runStream false [] [writeFailEnv])
      + countOutcome .skippedExisting (extract_runStream false [] [writeFailEnv])
      + countOutcome .decodeErr (extract_runStream false [] [writeFailEnv])
      + countOutcome .badUrl (extract_runStream false [] [writeFailEnv])
      + countOutcome .dirFail (extract_runStream false [] [writeFailEnv])
      + countOutcome .writeFail (extract_runStream false [] [writeFailEnv])
      = [writeFailEnv].length :=
  c1_record_accounting false [] [writeFailEnv]

/-- C3 witness: the filesystem-listener clause of the amended
theorem instantiated at limit 3 and processed count 3. -/
theorem c3_witness :
    (files_on_parse (some 3) false false [] okSinkEnv
        { article := sampleArticle, count := 3 } 0).1
      = FilesParseOutcome.cancelled ↔ 3 ≤ 3 :=
  c3_limit_cancellation.1 3 false false [] okSinkEnv
    { article := sampleArticle, count := 3 } 0

/-- C10 witness: the theorem instantiated at the concrete raw key
`"a:b"`. -/
theorem c10_witness :
    '/' ∉ sanitize_name "a:b".toList ∧ ':' ∉ sanitize_name "a:b".toList
      ∧ '*' ∉ sanitize_name "a:b".toList
      ∧ sanitize_name (sanitize_name "a:b".toList) = sanitize_name "a:b".toList :=
  c10_sanitize_safe_idempotent "a:b".toList

end WikiExtract
